import Mathlib

/-!
Verification development for the account-creation automation scripts.

The repository contains three variants of a bounded-concurrency task
orchestrator driving a register / poll-for-code / finalize workflow:
a fixed-batch launcher (src/app.js), a race-based queue (src/unnamed/part_001)
and a dynamic launch-next queue (src/unnamed/part_000, `runHighThroughput`).
This file gives a shallow embedding of those functions and of the shared
helpers (`encryptToTargetHex`, the verification-code poll loop,
`createAccount`, `findCollegeByName`) and proves properties about them.

Conventions of the embedding:
* JavaScript strings are modelled as Lean `String` where only equality and
  emptiness matter, and as `List Char` / `List Nat` (code points) where the
  character structure matters.
* Asynchronous collaborators (HTTP transports, the file system) are modelled
  as `Except String` values supplied by an environment record: `.error e`
  models a rejected promise / thrown exception, `.ok v` a resolved value.
* JavaScript while-loops are modelled by structural recursion on an explicit
  fuel argument chosen large enough that the fuel can never run out on the
  paths the loop can actually take; this keeps every definition computable
  by the kernel.
-/

set_option autoImplicit false

namespace AbdCart

/--
Falsiness test `!verificationCode` from the poll loops: the scraped
verification code is `null` when the fetch threw (modelled `none`) and the
empty string when the selector matched nothing; both are falsy.
-/
def blank : Option String → Bool
  | none => true
  | some s => s = ""

/--
The verification-code poll loop shared by `createAccount`
(src/unnamed/part_001 lines 309-325, with `maxAttempts = 12`, and the turbo
variant src/unnamed/part_000 lines 769-786, with `maxAttempts = 4`):

    let verificationCode; let attempts = 0;
    do {
      verificationCode = await functionGetLink(...);
      if (!verificationCode) { attempts++; ...wait... }
    } while (!verificationCode && attempts < maxAttempts);

`probe k` is the result of the (k+1)-st call of `functionGetLink`.  The
`attempts` argument counts the iterations already performed (each earlier
iteration found a blank code).  The result pairs the final value of
`verificationCode` with the total number of probe calls made; the fuel is
spent one unit per iteration, so `fuel = maxPollAttempts` never runs out.
-/
def pollGo (probe : Nat → Option String) (maxPollAttempts : Nat) :
    Nat → Nat → Option String × Nat
  | 0, attempts => (probe attempts, attempts + 1)
  | fuel + 1, attempts =>
    let code := probe attempts
    if blank code ∧ attempts + 1 < maxPollAttempts then
      pollGo probe maxPollAttempts fuel (attempts + 1)
    else
      (code, attempts + 1)

/-- Entry point of the poll loop: start with zero attempts made. -/
def pollLoop (probe : Nat → Option String) (maxPollAttempts : Nat) :
    Option String × Nat :=
  pollGo probe maxPollAttempts maxPollAttempts 0

/--
Hex digit characters as produced by JavaScript `Number.prototype.toString(16)`
(lowercase).  `Nat.digitChar` agrees with it on digits 0-15.
-/
def toHexDigitsGo : Nat → Nat → List Char → List Char
  | 0, n, acc => Nat.digitChar n :: acc
  | fuel + 1, n, acc =>
    if n < 16 then Nat.digitChar n :: acc
    else toHexDigitsGo fuel (n / 16) (Nat.digitChar (n % 16) :: acc)

/--
`toHexString n` models `n.toString(16)` for natural `n`; fuel `n` is enough
because the value shrinks by a factor of 16 every iteration.
-/
def toHexString (n : Nat) : List Char :=
  toHexDigitsGo n n []

/-- Models `.padStart(2, "0")`. -/
def padStart2 (l : List Char) : List Char :=
  if l.length < 2 then List.replicate (2 - l.length) '0' ++ l else l

/--
`encryptToTargetHex` (src/app.js lines 57-64, src/unnamed/part_001 lines
60-67): each character code is XORed with 0x05 and appended as a two-digit
(for codes up to 0xFF) lowercase hex chunk.  The input string is modelled by
its list of character code points.
-/
def encryptToTargetHex (input : List Nat) : List Char :=
  (input.map (fun c => padStart2 (toHexString (c ^^^ 0x05)))).flatten

/-- Value of a lowercase hex digit character, inverse of `Nat.digitChar` on 0-15. -/
def hexVal (c : Char) : Nat :=
  if 97 ≤ c.toNat then c.toNat - 87 else c.toNat - 48

/--
Decoder described by the claim: split the hex string into consecutive
2-digit chunks, decode each chunk and XOR it with 0x05.
-/
def decodeTargetHex : List Char → List Nat
  | h :: l :: rest => ((hexVal h * 16 + hexVal l) ^^^ 0x05) :: decodeTargetHex rest
  | _ => []

/--
Default attempt budget of the launch-next orchestrator
(src/unnamed/part_000 line 947):

    const maxAttempts = Math.max(loopCount * 3, loopCount + MAX_CONCURRENT_REQUESTS);
-/
def defaultMaxAttempts (loopCount maxConcurrentRequests : Nat) : Nat :=
  max (loopCount * 3) (loopCount + maxConcurrentRequests)

/-- An HTTP response as seen through node-fetch: `ok` flag, status, body text. -/
structure HttpResp where
  ok : Bool
  status : Nat
  body : String
deriving DecidableEq

/--
The JSON object returned by the registration / verification endpoints, as far
as `createAccount` inspects it: a `message` field and an optional `error`
field.
-/
structure RegResponse where
  message : String
  error : Option String
deriving DecidableEq

/--
Models the emptiness check `!responseText.trim()`: true exactly when the
body is all whitespace.
-/
def isBlankBody (s : String) : Bool :=
  s.toList.all (fun c => c.isWhitespace)

/--
`regist_sendRequest` (src/unnamed/part_001 lines 133-195): the fetch itself
is an external collaborator (`transport`), as is JSON parsing (`parseJson`,
`none` modelling a `JSON.parse` exception).  Every failure mode — thrown
transport error, non-ok HTTP status, empty body, unparseable body — is caught
inside the function and converted into a `message = "error"` response object,
so the function never throws.
-/
def regist_sendRequest (transport : Except String HttpResp)
    (parseJson : String → Option RegResponse) : RegResponse :=
  match transport with
  | .error e => ⟨"error", some e⟩
  | .ok resp =>
    if resp.ok = false then ⟨"error", some ("HTTP " ++ toString resp.status)⟩
    else if isBlankBody resp.body then ⟨"error", some "Empty response"⟩
    else
      match parseJson resp.body with
      | some data => data
      | none => ⟨"error", some "Invalid JSON response"⟩

/--
`verify_sendRequest` (src/unnamed/part_001 lines 197-267): identical error
discipline to `regist_sendRequest`, at the register_verify_login endpoint.
-/
def verify_sendRequest (transport : Except String HttpResp)
    (parseJson : String → Option RegResponse) : RegResponse :=
  match transport with
  | .error e => ⟨"error", some e⟩
  | .ok resp =>
    if resp.ok = false then ⟨"error", some ("HTTP " ++ toString resp.status)⟩
    else if isBlankBody resp.body then ⟨"error", some "Empty response"⟩
    else
      match parseJson resp.body with
      | some data => data
      | none => ⟨"error", some "Invalid JSON response"⟩

/--
`functionGetLink` (src/unnamed/part_001 lines 111-131): the fetch plus
cheerio scrape is the collaborator `transport`, yielding the scraped text on
success.  A thrown transport error is caught and converted to `null`
(modelled `none`) — it is NOT propagated and NOT marked as a distinct
failure kind.
-/
def functionGetLink (transport : Except String String) : Option String :=
  match transport with
  | .ok src => some src
  | .error _ => none

/--
`saveToFile` (src/unnamed/part_001 lines 269-275): appends to a file and
swallows any error, so the caller observes only `unit`.
-/
def saveToFile (outcome : Except String Unit) : Unit :=
  match outcome with
  | .ok _ => ()
  | .error _ => ()

/--
External collaborators of one `createAccount` attempt.  `emailGen` stands
for the faker / domain-pick prologue, the one part of the body that is not
individually wrapped in its own try/catch and can therefore reach the outer
catch of `createAccount`.  `probeTransport k` is the transport result of the
(k+1)-st `functionGetLink` call of this attempt.
-/
structure AttemptEnv where
  emailGen : Except String String
  registerTransport : Except String HttpResp
  registerParse : String → Option RegResponse
  probeTransport : Nat → Except String String
  verifyTransport : Except String HttpResp
  verifyParse : String → Option RegResponse
  saveOutcome : Except String Unit

/--
Body of `createAccount` (src/unnamed/part_001 lines 277-352; the turbo
variant src/unnamed/part_000 lines 737-814 is identical up to
`maxPollAttempts = 4` and the skipped final wait) before the outer catch is
applied.  The result pairs the returned boolean with the number of probe
calls made (a ghost observation used to state the claims; the source returns
only the boolean).
-/
def createAccountBody (maxPollAttempts : Nat) (env : AttemptEnv) :
    Except String (Bool × Nat) := do
  let _email ← env.emailGen
  let reqnya := regist_sendRequest env.registerTransport env.registerParse
  if reqnya.message ≠ "success" then
    return (false, 0)
  else
    let r := pollLoop (fun k => functionGetLink (env.probeTransport k)) maxPollAttempts
    if blank r.1 then
      return (false, r.2)
    else
      let verifyResult := verify_sendRequest env.verifyTransport env.verifyParse
      if verifyResult.message = "success" then
        let _ := saveToFile env.saveOutcome
        return (true, r.2)
      else
        return (false, r.2)

/--
`createAccount` with its outer try/catch: any error escaping the body is
caught and converted into a `false` outcome (with zero probe calls, since
the only uncaught throw point precedes the poll loop).
-/
def createAccountRun (maxPollAttempts : Nat) (env : AttemptEnv) : Bool × Nat :=
  match createAccountBody maxPollAttempts env with
  | .ok r => r
  | .error _ => (false, 0)

/-- The boolean outcome of `createAccount` as the orchestrator sees it. -/
def createAccount (maxPollAttempts : Nat) (env : AttemptEnv) : Bool :=
  (createAccountRun maxPollAttempts env).1

/--
`createAccount` as an `Except` computation as the caller observes it:
the outer catch handler turns every error into a resolved `false`, so the
promise returned to the orchestrator can only resolve, never reject.
-/
def createAccountCaught (maxPollAttempts : Nat) (env : AttemptEnv) :
    Except String Bool :=
  match createAccountBody maxPollAttempts env with
  | .ok r => .ok r.1
  | .error _ => .ok false

/--
Parameters of the launch-next orchestrator `runHighThroughput`
(src/unnamed/part_000 lines 944-983): `loopCount` is the success target,
`maxConcurrentRequests` the concurrency ceiling, `maxAttempts` the attempt
budget.
-/
structure OrchParams where
  loopCount : Nat
  maxConcurrentRequests : Nat
  maxAttempts : Nat
deriving DecidableEq

/--
Mutable state of one orchestrator run: `attemptNumber` counts launches,
`successCount` counts successes, `inFlight` lists the indices of launched
but not yet completed attempts in launch order, `resolved` records whether
`resolve()` has been called on the run promise.
-/
structure OrchState where
  attemptNumber : Nat
  successCount : Nat
  inFlight : List Nat
  resolved : Bool
deriving DecidableEq

/-- State before `launchNext()` is first called. -/
def initialState : OrchState := ⟨0, 0, [], false⟩

/--
The while-loop of `launchNext` (src/unnamed/part_000 lines 959-977):

    while (inFlight.size < MAX_CONCURRENT_REQUESTS &&
           attemptNumber < maxAttempts && successCount < loopCount) {
      attemptNumber++;
      ... inFlight.add(attemptPromise); }

JavaScript runs the loop body to completion before any completion handler
can fire, so the whole burst is one atomic state change.  Fuel is spent one
unit per launch; `maxAttempts - attemptNumber` units always suffice because
every iteration increments `attemptNumber` below `maxAttempts`.
-/
def launchBatch (p : OrchParams) : Nat → OrchState → OrchState
  | 0, s => s
  | fuel + 1, s =>
    if s.inFlight.length < p.maxConcurrentRequests ∧
        s.attemptNumber < p.maxAttempts ∧ s.successCount < p.loopCount then
      launchBatch p fuel
        { s with attemptNumber := s.attemptNumber + 1,
                 inFlight := s.inFlight ++ [s.attemptNumber + 1] }
    else s

/--
`launchNext` (src/unnamed/part_000 lines 954-978): first the resolution
check

    if (successCount >= loopCount ||
        (attemptNumber >= maxAttempts && inFlight.size === 0)) return resolve();

then the launch burst.
-/
def launchNext (p : OrchParams) (s : OrchState) : OrchState :=
  if p.loopCount ≤ s.successCount ∨
      (p.maxAttempts ≤ s.attemptNumber ∧ s.inFlight = []) then
    { s with resolved := true }
  else
    launchBatch p (p.maxAttempts - s.attemptNumber) s

/--
Completion of one in-flight attempt: the `.then` handler increments
`successCount` on success, the `.finally` handler removes the promise from
`inFlight` and calls `launchNext()` (src/unnamed/part_000 lines 967-974).
`outcome i` is the boolean the attempt with index `i` resolves to; the
scheduler choice `k` selects which in-flight attempt completes.
-/
def completeAttempt (p : OrchParams) (outcome : Nat → Bool) (s : OrchState)
    (k : Nat) : OrchState :=
  if s.inFlight.isEmpty then s
  else
    let idx := k % s.inFlight.length
    let i := s.inFlight.getD idx 0
    let s1 : OrchState :=
      { s with
        successCount := if outcome i then s.successCount + 1 else s.successCount,
        inFlight := s.inFlight.eraseIdx idx }
    launchNext p s1

/--
A run unfolds as a sequence of completion events; the single-threaded event
loop performs them one at a time, in an order chosen by the (adversarial)
scheduler `schedule`.  Events stop when nothing is in flight.
-/
def runEvents (p : OrchParams) (outcome : Nat → Bool) :
    List Nat → OrchState → OrchState
  | [], s => s
  | k :: ks, s =>
    if s.inFlight.isEmpty then s
    else runEvents p outcome ks (completeAttempt p outcome s k)

/--
`runHighThroughput` (src/unnamed/part_000 lines 951-981): the initial
`launchNext()` call followed by the completion events of the run.
-/
def runHighThroughput (p : OrchParams) (outcome : Nat → Bool)
    (schedule : List Nat) : OrchState :=
  runEvents p outcome schedule (launchNext p initialState)

/-- The measure that each completion event strictly decreases. -/
def measureOf (p : OrchParams) (s : OrchState) : Nat :=
  (p.maxAttempts - s.attemptNumber) + s.inFlight.length

/-- ASCII alphanumeric test, the character class `[a-zA-Z0-9]`. -/
def isAlnum (c : Char) : Bool :=
  (('a' ≤ c) && (c ≤ 'z')) || (('A' ≤ c) && (c ≤ 'Z')) || (('0' ≤ c) && (c ≤ '9'))

/--
Scanning helper for the regex `\([^)]*\)`: starting right after an opening
parenthesis, drop everything up to and including the first closing
parenthesis; `none` if no closing parenthesis follows (then the regex does
not match at that opening parenthesis).
-/
def dropThroughClose : List Char → Option (List Char)
  | [] => none
  | c :: rest => if c = ')' then some rest else dropThroughClose rest

/--
Global replacement `.replace(/\([^)]*\)/g, ' ')` from `normalizeName`
(src/unnamed/part_000 lines 102-110).  Fuel is spent one unit per emitted
or skipped character, so the length of the input always suffices.
-/
def replaceParensGo : Nat → List Char → List Char
  | 0, l => l
  | _ + 1, [] => []
  | fuel + 1, c :: rest =>
    if c = '(' then
      match dropThroughClose rest with
      | some after => ' ' :: replaceParensGo fuel after
      | none => '(' :: replaceParensGo fuel rest
    else c :: replaceParensGo fuel rest

/-- Entry point of the parenthetical replacement. -/
def replaceParens (l : List Char) : List Char :=
  replaceParensGo l.length l

/--
Global replacement `.replace(/[^a-zA-Z0-9]+/g, ' ')`: each maximal run of
non-alphanumeric characters becomes a single space.
-/
def collapseNonAlnumGo : Nat → List Char → List Char
  | 0, l => l
  | _ + 1, [] => []
  | fuel + 1, c :: rest =>
    if isAlnum c then c :: collapseNonAlnumGo fuel rest
    else ' ' :: collapseNonAlnumGo fuel (rest.dropWhile (fun d => !isAlnum d))

/-- Entry point of the non-alphanumeric collapse. -/
def collapseNonAlnum (l : List Char) : List Char :=
  collapseNonAlnumGo l.length l

/--
Models `.trim()`.  At the point where `normalizeName` trims, the string
contains only ASCII alphanumerics and plain spaces, so trimming spaces is
the whole job.
-/
def trimSpaces (l : List Char) : List Char :=
  ((l.dropWhile (fun c => c = ' ')).reverse.dropWhile (fun c => c = ' ')).reverse

/--
`normalizeName` (src/unnamed/part_000 lines 102-110): strip parentheticals,
collapse separator runs, trim, lowercase.  The guard returning the empty
string on an empty name is subsumed by the pipeline returning `[]` on `[]`.
-/
def normalizeName (name : List Char) : List Char :=
  (trimSpaces (collapseNonAlnum (replaceParens name))).map Char.toLower

/-- A college record, as far as `findCollegeByName` inspects it. -/
structure College where
  id : Nat
  name : List Char
deriving DecidableEq

/--
Models `haystack.includes(needle)` on strings: `needle` occurs as a
contiguous substring of `haystack`.
-/
def includesList : List Char → List Char → Bool
  | [], needle => needle.isEmpty
  | c :: rest, needle => needle.isPrefixOf (c :: rest) || includesList rest needle

/--
The matching loop of `findCollegeByName` (src/unnamed/part_000 lines
112-131): return the first exact normalized match immediately; remember the
first loose (substring either way) match and return it only if the whole
iteration finds no exact match.  `looseMatch` models the fallback-match
accumulator of the source.
-/
def findCollegeLoop (target : List Char) :
    List College → Option College → Option College
  | [], looseMatch => looseMatch
  | college :: rest, looseMatch =>
    let normalizedCollege := normalizeName college.name
    if normalizedCollege = target then some college
    else if looseMatch.isNone &&
        (includesList normalizedCollege target ||
         includesList target normalizedCollege) then
      findCollegeLoop target rest (some college)
    else
      findCollegeLoop target rest looseMatch

/--
`findCollegeByName` (src/unnamed/part_000 lines 112-131): `const target =
normalizeName(schoolName); if (!target) return null;` then the loop.  The
colleges map is modelled as the list of its values in iteration order.
-/
def findCollegeByName (colleges : List College) (schoolName : List Char) :
    Option College :=
  if normalizeName schoolName = [] then none
  else findCollegeLoop (normalizeName schoolName) colleges none

/-- Concrete attempt environment whose registration transport throws. -/
def envRegisterFailed : AttemptEnv :=
  ⟨.ok "user", .error "ECONNRESET", fun _ => none, fun _ => .error "x",
   .ok ⟨true, 200, "body"⟩, fun _ => none, .ok ()⟩

/--
Concrete attempt environment: registration succeeds, every probe fetch
succeeds but the inbox never contains a code (scraped text empty).
-/
def envPollEmpty : AttemptEnv :=
  ⟨.ok "user", .ok ⟨true, 200, "body"⟩, fun _ => some ⟨"success", none⟩,
   fun _ => .ok "", .ok ⟨true, 200, "body"⟩, fun _ => some ⟨"success", none⟩, .ok ()⟩

/--
Concrete attempt environment: registration succeeds, every probe fetch
throws a transport error.
-/
def envPollError : AttemptEnv :=
  ⟨.ok "user", .ok ⟨true, 200, "body"⟩, fun _ => some ⟨"success", none⟩,
   fun _ => .error "socket hang up", .ok ⟨true, 200, "body"⟩,
   fun _ => some ⟨"success", none⟩, .ok ()⟩

/-- Parameters of the scripted scenario: target 3, concurrency 2, budget 10. -/
def scenarioParams : OrchParams := ⟨3, 2, 10⟩

/-- Scripted executor of the scenario: attempts 1 and 2 fail, 3, 4, 5 succeed. -/
def scenarioOutcome : Nat → Bool := fun i => (3 ≤ i) && (i ≤ 5)

/-- Concrete colleges list: a loose match first, the exact match after it. -/
def demoColleges : List College :=
  [⟨1, "State College of Arts".toList⟩, ⟨2, "State College".toList⟩]

end AbdCart

namespace AbdCart

/-! ## Poll loop lemmas -/

theorem pollGo_eq_found (probe : Nat → Option String) (maxA j : Nat)
    (hj : j < maxA) (hblank : ∀ k, k < j → blank (probe k) = true)
    (hfound : blank (probe j) = false) :
    ∀ fuel attempts, attempts ≤ j → j - attempts ≤ fuel →
      pollGo probe maxA fuel attempts = (probe j, j + 1) := by
  intro fuel
  induction fuel with
  | zero =>
    intro attempts h1 h2
    have : attempts = j := by omega
    subst this
    simp [pollGo]
  | succ fuel ih =>
    intro attempts h1 h2
    rcases Nat.eq_or_lt_of_le h1 with heq | hlt
    · subst heq
      simp [pollGo, hfound]
    · have hb := hblank attempts hlt
      have hcond : attempts + 1 < maxA := by omega
      simp only [pollGo, hb, hcond, and_self, if_pos, true_and]
      exact ih (attempts + 1) (by omega) (by omega)

theorem pollGo_eq_timeout (probe : Nat → Option String) (maxA : Nat)
    (hblank : ∀ k, k < maxA → blank (probe k) = true) :
    ∀ fuel attempts, attempts < maxA → maxA - attempts ≤ fuel + 1 →
      pollGo probe maxA fuel attempts = (probe (maxA - 1), maxA) := by
  intro fuel
  induction fuel with
  | zero =>
    intro attempts h1 h2
    have : attempts = maxA - 1 := by omega
    subst this
    have : maxA - 1 + 1 = maxA := by omega
    simp [pollGo, this]
  | succ fuel ih =>
    intro attempts h1 h2
    by_cases hcond : attempts + 1 < maxA
    · have hb := hblank attempts h1
      simp only [pollGo]
      rw [if_pos ⟨hb, hcond⟩]
      exact ih (attempts + 1) hcond (by omega)
    · have hlast : attempts = maxA - 1 := by omega
      have hsum : attempts + 1 = maxA := by omega
      simp only [pollGo]
      rw [if_neg (by simp [hcond])]
      rw [hsum, hlast]

/--
C4: for every probe and every `maxPollAttempts ≥ 1`, if probes `1..N-1`
return a blank result and probe `N` (with `N ≤ maxPollAttempts`) returns a
non-blank result, the poll loop makes exactly `N` probe calls and returns
that artifact; if all `maxPollAttempts` probes return blank results, it
makes exactly `maxPollAttempts` calls and ends with a blank (timed-out)
result.
-/
theorem pollLoop_spec (probe : Nat → Option String) (maxPollAttempts N : Nat)
    (hmax : 1 ≤ maxPollAttempts) :
    (1 ≤ N → N ≤ maxPollAttempts →
      (∀ k, k < N - 1 → blank (probe k) = true) →
      blank (probe (N - 1)) = false →
      pollLoop probe maxPollAttempts = (probe (N - 1), N)) ∧
    ((∀ k, k < maxPollAttempts → blank (probe k) = true) →
      pollLoop probe maxPollAttempts = (probe (maxPollAttempts - 1), maxPollAttempts) ∧
      blank (pollLoop probe maxPollAttempts).1 = true) := by
  constructor
  · intro hN hNle hbl hfound
    have hj : N - 1 < maxPollAttempts := by omega
    have := pollGo_eq_found probe maxPollAttempts (N - 1) hj hbl hfound
      maxPollAttempts 0 (by omega) (by omega)
    rw [pollLoop, this]
    congr 1
    omega
  · intro hbl
    have := pollGo_eq_timeout probe maxPollAttempts hbl maxPollAttempts 0
      (by omega) (by omega)
    rw [pollLoop, this]
    exact ⟨rfl, hbl (maxPollAttempts - 1) (by omega)⟩

/-- Witness for C4 at the boundary value 1 and at the source value 12. -/
theorem pollLoop_spec_witness :
    pollLoop (fun k => if k = 2 then some "123456" else some "") 12 = (some "123456", 3) ∧
    pollLoop (fun _ => (none : Option String)) 1 = (none, 1) := by
  constructor
  · have h := (pollLoop_spec (fun k => if k = 2 then some "123456" else some "") 12 3
      (by omega)).1 (by omega) (by omega) (by decide) (by decide)
    simpa using h
  · have h := ((pollLoop_spec (fun _ => (none : Option String)) 1 1 (by omega)).2
      (by intro k hk; rfl)).1
    simpa using h

/-! ## Workflow executor theorems -/

/--
C5: whenever the Phase-1 registration outcome does not signal success —
which is the case for an explicit error response, a non-ok HTTP status, a
thrown transport error and a malformed body, all of which
`regist_sendRequest` folds into a `message ≠ "success"` response —
`createAccount` returns `false` immediately and the verification-code probe
is called zero times.
-/
theorem createAccount_register_short_circuit (maxPollAttempts : Nat)
    (env : AttemptEnv)
    (hfail : (regist_sendRequest env.registerTransport env.registerParse).message
      ≠ "success") :
    createAccountRun maxPollAttempts env = (false, 0) := by
  unfold createAccountRun createAccountBody
  cases h : env.emailGen with
  | error e => rfl
  | ok v =>
    simp only [Except.bind, bind, if_pos hfail]
    rfl

/-- Witness for C5: a thrown registration transport error. -/
theorem createAccount_register_short_circuit_witness :
    (regist_sendRequest envRegisterFailed.registerTransport
        envRegisterFailed.registerParse).message ≠ "success" ∧
    createAccountRun 12 envRegisterFailed = (false, 0) :=
  ⟨by decide,
   createAccount_register_short_circuit 12 envRegisterFailed (by decide)⟩

/--
C6: for every environment — in particular for collaborators that throw at
any phase — `createAccount` as seen by the orchestrator is a resolved
boolean: the outer catch converts every escaping error into `false`, so the
computation never ends in `Except.error`.
-/
theorem createAccount_never_throws (maxPollAttempts : Nat) (env : AttemptEnv) :
    createAccountCaught maxPollAttempts env =
      Except.ok (createAccount maxPollAttempts env) := by
  unfold createAccountCaught createAccount createAccountRun
  cases createAccountBody maxPollAttempts env <;> rfl

/--
C7 counterexample: the code does not return a distinguished timeout value
and does not distinguish poll exhaustion from a probe transport error.
With registration succeeding, an attempt whose twelve probes all find an
empty inbox and an attempt whose twelve probe fetches all throw produce
exactly the same observable outcome `(false, 12)`: `functionGetLink`
catches the thrown error and converts it to `null` (`none`), which the
loop counts as an ordinary empty poll, and the exhausted loop makes
`createAccount` return the plain boolean `false` — no `TimeoutFailure`
value carrying the attempt count exists, and no distinct failure kind for
the transport error exists.
-/
theorem poll_timeout_indistinguishable_counterexample :
    createAccountRun 12 envPollEmpty = (false, 12) ∧
    createAccountRun 12 envPollError = (false, 12) ∧
    createAccountRun 12 envPollEmpty = createAccountRun 12 envPollError ∧
    functionGetLink (Except.error "socket hang up") = none ∧
    blank (functionGetLink (Except.error "socket hang up")) =
      blank (functionGetLink (Except.ok "")) :=
  ⟨by decide, by decide, by decide, rfl, rfl⟩

/--
C7 as amended: when the poll loop exhausts all `maxPollAttempts` probes
(whether each probe found an empty inbox or threw a transport error that
`functionGetLink` converted to `null`), the attempt returns `succeeded =
false` after exactly `maxPollAttempts` probe calls; the attempt count is
logged but no distinguished timeout value is returned, and a probe
transport error is not distinguishable from an empty poll result.
-/
theorem poll_exhaustion_returns_false (maxPollAttempts : Nat) (env : AttemptEnv)
    (hmax : 1 ≤ maxPollAttempts)
    (hmail : ∃ u, env.emailGen = Except.ok u)
    (hreg : (regist_sendRequest env.registerTransport env.registerParse).message
      = "success")
    (hprobe : ∀ k, k < maxPollAttempts →
      blank (functionGetLink (env.probeTransport k)) = true) :
    createAccountRun maxPollAttempts env = (false, maxPollAttempts) := by
  obtain ⟨u, hu⟩ := hmail
  have hp := pollGo_eq_timeout (fun k => functionGetLink (env.probeTransport k))
    maxPollAttempts hprobe maxPollAttempts 0 (by omega) (by omega)
  unfold createAccountRun createAccountBody
  simp only [hu, Except.bind, bind]
  rw [if_neg (by simp [hreg])]
  rw [pollLoop, hp]
  simp only [hprobe (maxPollAttempts - 1) (by omega), if_pos]
  rfl

/-- Witness for the amended C7, at the all-transport-errors environment. -/
theorem poll_exhaustion_returns_false_witness :
    createAccountRun 12 envPollError = (false, 12) :=
  poll_exhaustion_returns_false 12 envPollError (by omega) ⟨"user", rfl⟩
    (by decide) (by intro k _; rfl)

/--
C8: the attempt budget of the launch-next orchestrator is
`max(targetSuccesses × 3, targetSuccesses + concurrencyLimit)` for every
`targetSuccesses ≥ 1` and `concurrencyLimit ≥ 1` (and in particular is at
least the success target).
-/
theorem defaultMaxAttempts_eq (t c : Nat) (_ht : 1 ≤ t) (_hc : 1 ≤ c) :
    defaultMaxAttempts t c = max (t * 3) (t + c) ∧ t ≤ defaultMaxAttempts t c := by
  refine ⟨rfl, ?_⟩
  unfold defaultMaxAttempts
  exact le_trans (Nat.le_add_right t c) (le_max_right _ _)

/-- Witness for C8 at `targetSuccesses = 3`, `concurrencyLimit = 2`. -/
theorem defaultMaxAttempts_eq_witness :
    defaultMaxAttempts 3 2 = max (3 * 3) (3 + 2) ∧ 3 ≤ defaultMaxAttempts 3 2 :=
  defaultMaxAttempts_eq 3 2 (by omega) (by omega)

/-! ## Orchestrator lemmas -/

theorem launchBatch_resolved (p : OrchParams) :
    ∀ fuel s, (launchBatch p fuel s).resolved = s.resolved := by
  intro fuel
  induction fuel with
  | zero => intro s; rfl
  | succ fuel ih =>
    intro s
    simp only [launchBatch]
    split
    · rw [ih]
    · rfl

theorem launchBatch_bounds (p : OrchParams) :
    ∀ fuel s, s.attemptNumber ≤ p.maxAttempts →
      s.inFlight.length ≤ p.maxConcurrentRequests →
      (launchBatch p fuel s).attemptNumber ≤ p.maxAttempts ∧
      (launchBatch p fuel s).inFlight.length ≤ p.maxConcurrentRequests := by
  intro fuel
  induction fuel with
  | zero => intro s h1 h2; exact ⟨h1, h2⟩
  | succ fuel ih =>
    intro s h1 h2
    simp only [launchBatch]
    split
    · rename_i hcond
      refine ih _ ?_ ?_
      · show s.attemptNumber + 1 ≤ p.maxAttempts
        omega
      · show (s.inFlight ++ [s.attemptNumber + 1]).length ≤ p.maxConcurrentRequests
        simp only [List.length_append, List.length_cons, List.length_nil]
        omega
    · exact ⟨h1, h2⟩

theorem launchBatch_len_mono (p : OrchParams) :
    ∀ fuel s, s.inFlight.length ≤ (launchBatch p fuel s).inFlight.length := by
  intro fuel
  induction fuel with
  | zero => intro s; exact le_refl _
  | succ fuel ih =>
    intro s
    simp only [launchBatch]
    split
    · refine le_trans ?_ (ih _)
      simp
    · exact le_refl _

theorem launchBatch_an_mono (p : OrchParams) :
    ∀ fuel s, s.attemptNumber ≤ (launchBatch p fuel s).attemptNumber := by
  intro fuel
  induction fuel with
  | zero => intro s; exact le_refl _
  | succ fuel ih =>
    intro s
    simp only [launchBatch]
    split
    · exact le_trans (Nat.le_succ s.attemptNumber)
        (ih { s with attemptNumber := s.attemptNumber + 1,
                     inFlight := s.inFlight ++ [s.attemptNumber + 1] })
    · exact le_refl _

theorem launchBatch_measure (p : OrchParams) :
    ∀ fuel s, measureOf p (launchBatch p fuel s) = measureOf p s := by
  intro fuel
  induction fuel with
  | zero => intro s; rfl
  | succ fuel ih =>
    intro s
    simp only [launchBatch]
    split
    · rename_i hcond
      rw [ih]
      simp only [measureOf, List.length_append, List.length_cons, List.length_nil]
      omega
    · rfl

theorem launchNext_resolved_mono (p : OrchParams) (s : OrchState)
    (h : s.resolved = true) : (launchNext p s).resolved = true := by
  unfold launchNext
  split
  · rfl
  · rw [launchBatch_resolved]; exact h

theorem launchNext_bounds (p : OrchParams) (s : OrchState)
    (h1 : s.attemptNumber ≤ p.maxAttempts)
    (h2 : s.inFlight.length ≤ p.maxConcurrentRequests) :
    (launchNext p s).attemptNumber ≤ p.maxAttempts ∧
    (launchNext p s).inFlight.length ≤ p.maxConcurrentRequests := by
  unfold launchNext
  split
  · exact ⟨h1, h2⟩
  · exact launchBatch_bounds p _ s h1 h2

theorem launchNext_an_mono (p : OrchParams) (s : OrchState) :
    s.attemptNumber ≤ (launchNext p s).attemptNumber := by
  unfold launchNext
  split
  · exact le_refl _
  · exact launchBatch_an_mono p _ s

theorem launchNext_measure (p : OrchParams) (s : OrchState) :
    measureOf p (launchNext p s) = measureOf p s := by
  unfold launchNext
  split
  · rfl
  · exact launchBatch_measure p _ s

theorem launchNext_live (p : OrchParams) (s : OrchState)
    (hc : 1 ≤ p.maxConcurrentRequests) :
    (launchNext p s).resolved = true ∨ (launchNext p s).inFlight ≠ [] := by
  unfold launchNext
  split
  · exact Or.inl rfl
  · rename_i hguard
    push_neg at hguard
    obtain ⟨hsc, hrest⟩ := hguard
    by_cases hnil : s.inFlight = []
    · have han : s.attemptNumber < p.maxAttempts := by
        by_contra hcon
        exact hrest (by omega) hnil
      right
      obtain ⟨f, hf⟩ : ∃ f, p.maxAttempts - s.attemptNumber = f + 1 :=
        ⟨p.maxAttempts - s.attemptNumber - 1, by omega⟩
      rw [hf]
      simp only [launchBatch]
      rw [if_pos ⟨by rw [hnil]; simpa using hc, by omega, by omega⟩]
      apply List.ne_nil_of_length_pos
      refine lt_of_lt_of_le ?_ (launchBatch_len_mono p f _)
      simp
    · right
      apply List.ne_nil_of_length_pos
      refine lt_of_lt_of_le ?_ (launchBatch_len_mono p _ s)
      exact List.length_pos.mpr hnil

theorem completeAttempt_of_empty (p : OrchParams) (outcome : Nat → Bool)
    (s : OrchState) (k : Nat) (h : s.inFlight = []) :
    completeAttempt p outcome s k = s := by
  unfold completeAttempt
  rw [if_pos (by simpa [List.isEmpty_iff] using h)]

theorem completeAttempt_eq (p : OrchParams) (outcome : Nat → Bool)
    (s : OrchState) (k : Nat) (h : s.inFlight ≠ []) :
    completeAttempt p outcome s k =
      launchNext p
        { s with
          successCount :=
            if outcome (s.inFlight.getD (k % s.inFlight.length) 0) then
              s.successCount + 1
            else s.successCount,
          inFlight := s.inFlight.eraseIdx (k % s.inFlight.length) } := by
  unfold completeAttempt
  rw [if_neg (by simpa [List.isEmpty_iff] using h)]

theorem completeAttempt_resolved_mono (p : OrchParams) (outcome : Nat → Bool)
    (s : OrchState) (k : Nat) (h : s.resolved = true) :
    (completeAttempt p outcome s k).resolved = true := by
  by_cases hnil : s.inFlight = []
  · rw [completeAttempt_of_empty p outcome s k hnil]; exact h
  · rw [completeAttempt_eq p outcome s k hnil]
    exact launchNext_resolved_mono p _ h

theorem completeAttempt_bounds (p : OrchParams) (outcome : Nat → Bool)
    (s : OrchState) (k : Nat)
    (h1 : s.attemptNumber ≤ p.maxAttempts)
    (h2 : s.inFlight.length ≤ p.maxConcurrentRequests) :
    (completeAttempt p outcome s k).attemptNumber ≤ p.maxAttempts ∧
    (completeAttempt p outcome s k).inFlight.length ≤ p.maxConcurrentRequests := by
  by_cases hnil : s.inFlight = []
  · rw [completeAttempt_of_empty p outcome s k hnil]; exact ⟨h1, h2⟩
  · rw [completeAttempt_eq p outcome s k hnil]
    exact launchNext_bounds p _ h1 (le_trans (List.length_eraseIdx_le _ _) h2)

theorem completeAttempt_an_mono (p : OrchParams) (outcome : Nat → Bool)
    (s : OrchState) (k : Nat) :
    s.attemptNumber ≤ (completeAttempt p outcome s k).attemptNumber := by
  by_cases hnil : s.inFlight = []
  · rw [completeAttempt_of_empty p outcome s k hnil]
  · rw [completeAttempt_eq p outcome s k hnil]
    exact launchNext_an_mono p
      { s with
        successCount :=
          if outcome (s.inFlight.getD (k % s.inFlight.length) 0) then
            s.successCount + 1
          else s.successCount,
        inFlight := s.inFlight.eraseIdx (k % s.inFlight.length) }

theorem completeAttempt_measure (p : OrchParams) (outcome : Nat → Bool)
    (s : OrchState) (k : Nat) (h : s.inFlight ≠ []) :
    measureOf p (completeAttempt p outcome s k) + 1 = measureOf p s := by
  rw [completeAttempt_eq p outcome s k h, launchNext_measure]
  have hlen : 0 < s.inFlight.length := List.length_pos.mpr h
  have hidx : k % s.inFlight.length < s.inFlight.length := Nat.mod_lt _ hlen
  simp only [measureOf]
  have := List.length_eraseIdx_add_one hidx
  omega

theorem completeAttempt_live (p : OrchParams) (outcome : Nat → Bool)
    (s : OrchState) (k : Nat) (hc : 1 ≤ p.maxConcurrentRequests)
    (h : s.inFlight ≠ []) :
    (completeAttempt p outcome s k).resolved = true ∨
    (completeAttempt p outcome s k).inFlight ≠ [] := by
  rw [completeAttempt_eq p outcome s k h]
  exact launchNext_live p _ hc

theorem runEvents_of_empty (p : OrchParams) (outcome : Nat → Bool) :
    ∀ ks s, s.inFlight = [] → runEvents p outcome ks s = s := by
  intro ks
  induction ks with
  | nil => intro s _; rfl
  | cons k ks ih =>
    intro s h
    simp only [runEvents]
    rw [if_pos (by simpa [List.isEmpty_iff] using h)]

theorem runEvents_append (p : OrchParams) (outcome : Nat → Bool) :
    ∀ l₁ l₂ s, runEvents p outcome (l₁ ++ l₂) s =
      runEvents p outcome l₂ (runEvents p outcome l₁ s) := by
  intro l₁
  induction l₁ with
  | nil => intro l₂ s; rfl
  | cons k l₁ ih =>
    intro l₂ s
    simp only [List.cons_append, runEvents, List.append_eq]
    by_cases h : s.inFlight.isEmpty
    · rw [if_pos h, if_pos h, runEvents_of_empty]
      simpa [List.isEmpty_iff] using h
    · rw [if_neg h, if_neg h, ih]

theorem runEvents_bounds (p : OrchParams) (outcome : Nat → Bool) :
    ∀ ks s, s.attemptNumber ≤ p.maxAttempts →
      s.inFlight.length ≤ p.maxConcurrentRequests →
      (runEvents p outcome ks s).attemptNumber ≤ p.maxAttempts ∧
      (runEvents p outcome ks s).inFlight.length ≤ p.maxConcurrentRequests := by
  intro ks
  induction ks with
  | nil => intro s h1 h2; exact ⟨h1, h2⟩
  | cons k ks ih =>
    intro s h1 h2
    simp only [runEvents]
    split
    · exact ⟨h1, h2⟩
    · obtain ⟨g1, g2⟩ := completeAttempt_bounds p outcome s k h1 h2
      exact ih _ g1 g2

theorem runEvents_an_mono (p : OrchParams) (outcome : Nat → Bool) :
    ∀ ks s, s.attemptNumber ≤ (runEvents p outcome ks s).attemptNumber := by
  intro ks
  induction ks with
  | nil => intro s; exact le_refl _
  | cons k ks ih =>
    intro s
    simp only [runEvents]
    split
    · exact le_refl _
    · exact le_trans (completeAttempt_an_mono p outcome s k) (ih _)

theorem runEvents_resolved (p : OrchParams) (outcome : Nat → Bool)
    (hc : 1 ≤ p.maxConcurrentRequests) :
    ∀ ks s, (s.resolved = true ∨ s.inFlight ≠ []) →
      measureOf p s ≤ ks.length →
      (runEvents p outcome ks s).resolved = true := by
  intro ks
  induction ks with
  | nil =>
    intro s hlive hm
    have hlen : s.inFlight.length = 0 := by
      unfold measureOf at hm
      simp only [List.length_nil] at hm
      omega
    rcases hlive with h | h
    · exact h
    · exact absurd (List.length_eq_zero.mp hlen) h
  | cons k ks ih =>
    intro s hlive hm
    simp only [runEvents]
    by_cases he : s.inFlight.isEmpty
    · rw [if_pos he]
      rcases hlive with h | h
      · exact h
      · exact absurd (List.isEmpty_iff.mp he) h
    · rw [if_neg he]
      have hne : s.inFlight ≠ [] := by simpa [List.isEmpty_iff] using he
      apply ih
      · exact completeAttempt_live p outcome s k hc hne
      · have := completeAttempt_measure p outcome s k hne
        simp only [List.length_cons] at hm
        omega

/-! ## Orchestrator theorems -/

/--
C1: along every run of the launch-next orchestrator — for every choice of
parameters, attempt outcomes and completion schedule, hence at every
observable instant after the initial launch burst and after each
completion — the number of attempts launched is at most `maxAttempts` and
the number of in-flight attempts is at most `maxConcurrentRequests`.
-/
theorem orchestrator_invariants (p : OrchParams) (outcome : Nat → Bool)
    (schedule : List Nat) :
    (runHighThroughput p outcome schedule).attemptNumber ≤ p.maxAttempts ∧
    (runHighThroughput p outcome schedule).inFlight.length ≤
      p.maxConcurrentRequests := by
  unfold runHighThroughput
  obtain ⟨h1, h2⟩ := launchNext_bounds p initialState (by simp [initialState])
    (by simp [initialState])
  exact runEvents_bounds p outcome schedule _ h1 h2

/--
C2: for every finite `maxAttempts`, every mix of per-attempt outcomes
(including all failures) and every completion order, the orchestrator
resolves its run promise after at most `maxAttempts` completion events:
any schedule long enough to deliver every completion reaches the resolved
state.
-/
theorem runHighThroughput_terminates (p : OrchParams) (outcome : Nat → Bool)
    (schedule : List Nat) (hc : 1 ≤ p.maxConcurrentRequests)
    (hs : p.maxAttempts ≤ schedule.length) :
    (runHighThroughput p outcome schedule).resolved = true := by
  unfold runHighThroughput
  apply runEvents_resolved p outcome hc
  · exact launchNext_live p initialState hc
  · rw [launchNext_measure]
    simpa [measureOf, initialState] using hs

/-- Witness for C2: one success target, all attempts failing, budget 3. -/
theorem runHighThroughput_terminates_witness :
    (runHighThroughput ⟨1, 1, 3⟩ (fun _ => false) [0, 0, 0]).resolved = true :=
  runHighThroughput_terminates ⟨1, 1, 3⟩ (fun _ => false) [0, 0, 0]
    (by decide) (by decide)

/--
C3 counterexample: in the scripted scenario (`targetSuccesses = 3`,
`concurrencyLimit = 2`, `maxAttempts = 10`, attempts 1 and 2 fail, 3, 4, 5
succeed) the completion order that finishes attempts in launch order makes
the orchestrator launch attempt 6: after the completions of attempts 1, 2,
3 and 4 only two successes are counted, so the refill after attempt 4
launches a sixth attempt.  The run therefore does not end with
`attemptsLaunched = 5`, and an attempt with index greater than 5 is
launched, contradicting the claim for this completion order.
-/
theorem scenario_fifo_counterexample :
    runHighThroughput scenarioParams scenarioOutcome [0, 0, 0, 0, 0] =
      ⟨6, 3, [6], true⟩ ∧
    5 < (runHighThroughput scenarioParams scenarioOutcome
      [0, 0, 0, 0, 0]).attemptNumber :=
  ⟨by decide, by decide⟩

/--
C3 as amended: in the scripted scenario the run always counts exactly 3
successes at resolution, and there exists a completion order — attempt 1
first, then each success as soon as it is launched, attempt 2 draining
last — under which the run ends with `successCount = 3`,
`attemptsLaunched = 5` and no attempt with index greater than 5 ever
launched; other completion orders may launch up to `maxAttempts` attempts.
-/
theorem scenario_drain_schedule :
    runHighThroughput scenarioParams scenarioOutcome [0, 1, 1, 1, 0] =
      ⟨5, 3, [], true⟩ ∧
    ∀ n : Nat, (runHighThroughput scenarioParams scenarioOutcome
      (List.take n [0, 1, 1, 1, 0])).attemptNumber ≤ 5 := by
  refine ⟨by decide, ?_⟩
  intro n
  have hmono := runEvents_an_mono scenarioParams scenarioOutcome
    (List.drop n [0, 1, 1, 1, 0])
    (runHighThroughput scenarioParams scenarioOutcome (List.take n [0, 1, 1, 1, 0]))
  have hfull : runEvents scenarioParams scenarioOutcome
      (List.drop n [0, 1, 1, 1, 0])
      (runHighThroughput scenarioParams scenarioOutcome
        (List.take n [0, 1, 1, 1, 0])) =
      runHighThroughput scenarioParams scenarioOutcome [0, 1, 1, 1, 0] := by
    rw [runHighThroughput, runHighThroughput, ← runEvents_append,
      List.take_append_drop]
  rw [hfull] at hmono
  have h5 : (runHighThroughput scenarioParams scenarioOutcome
      [0, 1, 1, 1, 0]).attemptNumber = 5 := by decide
  exact le_trans hmono (le_of_eq h5)

/-! ## Hex encryption lemmas -/

theorem hexVal_digitChar (k : Nat) (h : k < 16) : hexVal (Nat.digitChar k) = k := by
  interval_cases k <;> decide

theorem toHexDigitsGo_small (fuel n : Nat) (acc : List Char) (h : n < 16) :
    toHexDigitsGo fuel n acc = Nat.digitChar n :: acc := by
  cases fuel with
  | zero => rfl
  | succ f =>
    simp only [toHexDigitsGo]
    rw [if_pos h]

theorem toHexString_byte (n : Nat) (h1 : 16 ≤ n) (h2 : n < 256) :
    toHexString n = [Nat.digitChar (n / 16), Nat.digitChar (n % 16)] := by
  unfold toHexString
  obtain ⟨m, rfl⟩ : ∃ m, n = m + 1 := ⟨n - 1, by omega⟩
  simp only [toHexDigitsGo]
  rw [if_neg (by omega)]
  exact toHexDigitsGo_small m ((m + 1) / 16) _ (by omega)

theorem encodeByte_eq (n : Nat) (h : n < 256) :
    padStart2 (toHexString n) =
      [Nat.digitChar (n / 16), Nat.digitChar (n % 16)] := by
  by_cases hs : n < 16
  · rw [toHexString, toHexDigitsGo_small n n [] hs]
    unfold padStart2
    simp only [List.length_cons, List.length_nil]
    rw [if_pos (by omega)]
    have hq : n / 16 = 0 := by omega
    have hr : n % 16 = n := by omega
    rw [hq, hr]
    rfl
  · rw [toHexString_byte n (by omega) h]
    unfold padStart2
    rw [if_neg (by simp)]

theorem xor5_lt_256 (c : Nat) (h : c ≤ 255) : c ^^^ 5 < 256 := by
  have : c < 2 ^ 8 := by omega
  have h5 : 5 < 2 ^ 8 := by omega
  simpa using Nat.xor_lt_two_pow this h5

theorem decode_encode_byte (c : Nat) (h : c ≤ 255) :
    (hexVal (Nat.digitChar ((c ^^^ 5) / 16)) * 16 +
      hexVal (Nat.digitChar ((c ^^^ 5) % 16))) ^^^ 5 = c := by
  have hlt : c ^^^ 5 < 256 := xor5_lt_256 c h
  rw [hexVal_digitChar _ (by omega), hexVal_digitChar _ (by omega)]
  have hsplit : (c ^^^ 5) / 16 * 16 + (c ^^^ 5) % 16 = c ^^^ 5 := by omega
  rw [hsplit, Nat.xor_assoc, Nat.xor_self, Nat.xor_zero]

theorem encryptToTargetHex_unfold (c : Nat) (rest : List Nat) :
    encryptToTargetHex (c :: rest) =
      padStart2 (toHexString (c ^^^ 0x05)) ++ encryptToTargetHex rest := by
  unfold encryptToTargetHex
  rw [List.map_cons, List.flatten_cons]

theorem encryptToTargetHex_len_decode (l : List Nat) (hl : ∀ c ∈ l, c ≤ 255) :
    (encryptToTargetHex l).length = 2 * l.length ∧
    decodeTargetHex (encryptToTargetHex l) = l := by
  induction l with
  | nil => exact ⟨rfl, rfl⟩
  | cons c rest ih =>
    have hc : c ≤ 255 := hl c (by simp)
    obtain ⟨ih1, ih2⟩ := ih (fun x hx => hl x (by simp [hx]))
    have hbyte := encodeByte_eq (c ^^^ 5) (xor5_lt_256 c hc)
    rw [encryptToTargetHex_unfold, hbyte]
    constructor
    · simp only [List.length_append, List.length_cons, List.length_nil,
        List.cons_append, List.nil_append, ih1]
      omega
    · simp only [List.cons_append, List.nil_append, decodeTargetHex]
      rw [decode_encode_byte c hc]
      show c :: decodeTargetHex (encryptToTargetHex rest) = c :: rest
      rw [ih2]

/--
C9: on strings whose characters all have code points at most 0xFF,
`encryptToTargetHex` produces a hex string of exactly twice the length,
decoding consecutive 2-hex-digit chunks and XOR-ing each with 0x05 recovers
the original string, and the encryption is injective on such strings.
-/
theorem encryptToTargetHex_props (input : List Nat)
    (h : ∀ c ∈ input, c ≤ 255) :
    (encryptToTargetHex input).length = 2 * input.length ∧
    decodeTargetHex (encryptToTargetHex input) = input ∧
    ∀ other : List Nat, (∀ c ∈ other, c ≤ 255) →
      encryptToTargetHex other = encryptToTargetHex input → other = input := by
  obtain ⟨h1, h2⟩ := encryptToTargetHex_len_decode input h
  refine ⟨h1, h2, ?_⟩
  intro other hother heq
  have h3 := (encryptToTargetHex_len_decode other hother).2
  rw [heq, h2] at h3
  exact h3.symm

/-- Witness for C9 at the code-point list of the string consisting of h and i. -/
theorem encryptToTargetHex_props_witness :
    (encryptToTargetHex [104, 105]).length = 2 * 2 ∧
    decodeTargetHex (encryptToTargetHex [104, 105]) = [104, 105] := by
  have h := encryptToTargetHex_props [104, 105] (by decide)
  exact ⟨h.1, h.2.1⟩

/-! ## College matching lemmas -/

theorem findCollegeLoop_exact (target : List Char) :
    ∀ (colleges : List College) (acc : Option College),
      (∃ c ∈ colleges, normalizeName c.name = target) →
      ∃ c, findCollegeLoop target colleges acc = some c ∧
        normalizeName c.name = target := by
  intro colleges
  induction colleges with
  | nil =>
    intro acc h
    obtain ⟨c, hc, _⟩ := h
    exact absurd hc (List.not_mem_nil c)
  | cons college rest ih =>
    intro acc h
    simp only [findCollegeLoop]
    by_cases hx : normalizeName college.name = target
    · rw [if_pos hx]
      exact ⟨college, rfl, hx⟩
    · rw [if_neg hx]
      have hrest : ∃ c ∈ rest, normalizeName c.name = target := by
        obtain ⟨c, hc, hcn⟩ := h
        rcases List.mem_cons.mp hc with rfl | hmem
        · exact absurd hcn hx
        · exact ⟨c, hmem, hcn⟩
      split
      · exact ih _ hrest
      · exact ih _ hrest

/--
C10: for every colleges map and school name, `findCollegeByName` returns
`null` when the normalized school name is empty, and whenever some college
has a normalized name exactly equal to the normalized school name the
returned college is one with that exactly-equal normalized name — a loose
substring match is never preferred over an existing exact match, whatever
the iteration order.
-/
theorem findCollegeByName_exact_preferred (colleges : List College)
    (schoolName : List Char) :
    (normalizeName schoolName = [] →
      findCollegeByName colleges schoolName = none) ∧
    (normalizeName schoolName ≠ [] →
      (∃ c ∈ colleges, normalizeName c.name = normalizeName schoolName) →
      ∃ c, findCollegeByName colleges schoolName = some c ∧
        normalizeName c.name = normalizeName schoolName) := by
  constructor
  · intro h
    unfold findCollegeByName
    rw [if_pos h]
  · intro hne hex
    unfold findCollegeByName
    rw [if_neg hne]
    exact findCollegeLoop_exact (normalizeName schoolName) colleges none hex

/--
Witness for C10: in `demoColleges` a loose match precedes the exact match,
yet a college with the exactly-equal normalized name is returned.
-/
theorem findCollegeByName_exact_preferred_witness :
    ∃ c, findCollegeByName demoColleges ("State College".toList) = some c ∧
      normalizeName c.name = normalizeName ("State College".toList) :=
  (findCollegeByName_exact_preferred demoColleges ("State College".toList)).2
    (by decide) ⟨⟨2, "State College".toList⟩, by decide, by decide⟩

end AbdCart
